import Mathlib

/-!
Verification of the moodboard canvas interaction engine.

Shallow embedding, over exact rationals, of:
* the pan/zoom transform hook (`useCanvasTransform`): `handleWheel`,
  `screenToCanvas`, `resetView`, pan via `onMouseMove`;
* the alignment/snap engine (`useAlignmentGuides.ts`): `calcSnap`;
* the board orchestrator pieces (`App.tsx` / `InfiniteCanvas.tsx`):
  `handleBringToFront`, `getViewportCenter`, `uploadAtScreenPoint`.
-/

namespace Moodboard

/-- The fields of `el.getBoundingClientRect()` that the canvas code reads. -/
structure DOMRect where
  left : ℚ
  top : ℚ
  width : ℚ
  height : ℚ
deriving Repr, DecidableEq

/-- `interface CanvasTransform { x; y; scale }` from the transform hook. -/
structure CanvasTransform where
  x : ℚ
  y : ℚ
  scale : ℚ
deriving Repr, DecidableEq

def MIN_SCALE : ℚ := 1/4

def MAX_SCALE : ℚ := 2

def ZOOM_SENSITIVITY : ℚ := 2/1000

/-- The `setTransform` updater inside `handleWheel`: `delta` has already been
computed from the wheel event; `cursorX`/`cursorY` are container-local
(`e.clientX - rect.left`, `e.clientY - rect.top`). -/
def wheelUpdate (prev : CanvasTransform) (delta cursorX cursorY : ℚ) : CanvasTransform :=
  let newScale := min MAX_SCALE (max MIN_SCALE (prev.scale * (1 + delta)))
  let newX := cursorX - (cursorX - prev.x) * (newScale / prev.scale)
  let newY := cursorY - (cursorY - prev.y) * (newScale / prev.scale)
  { x := newX, y := newY, scale := newScale }

/-- `handleWheel`: sensitivity selection (pinch doubles it), `delta = -deltaY *
sensitivity`, then the anchored-zoom state update. -/
def handleWheel (prev : CanvasTransform) (deltaY : ℚ) (isPinch : Bool)
    (cursorX cursorY : ℚ) : CanvasTransform :=
  let sensitivity := if isPinch then ZOOM_SENSITIVITY * 2 else ZOOM_SENSITIVITY
  let delta := -deltaY * sensitivity
  wheelUpdate prev delta cursorX cursorY

/-- `screenToCanvas(screenX, screenY, containerRect)` from the transform hook. -/
def screenToCanvas (t : CanvasTransform) (screenX screenY : ℚ)
    (containerRect : DOMRect) : ℚ × ℚ :=
  ((screenX - containerRect.left - t.x) / t.scale,
   (screenY - containerRect.top - t.y) / t.scale)

/-- The operations that mutate the transform: pan ticks (`onMouseMove` while
panning), wheel-zoom steps, and `resetView`. -/
inductive CanvasOp where
  | pan (dx dy : ℚ)
  | wheel (deltaY : ℚ) ( isPinch : Bool) (cursorX cursorY : ℚ)
  | resetView

/-- Apply one operation to the transform state. -/
def applyOp (t : CanvasTransform) : CanvasOp → CanvasTransform
  | .pan dx dy => { t with x := t.x + dx, y := t.y + dy }
  | .wheel deltaY p cx cy => handleWheel t deltaY p cx cy
  | .resetView => ⟨0, 0, 1⟩

/-- `useState<CanvasTransform>({ x: 0, y: 0, scale: 1 })`. -/
def initialTransform : CanvasTransform := ⟨0, 0, 1⟩

/-- Run a sequence of canvas operations from the initial state. -/
def runOps (ops : List CanvasOp) : CanvasTransform :=
  ops.foldl applyOp initialTransform

lemma wheelUpdate_scale (prev : CanvasTransform) (delta cx cy : ℚ) :
    MIN_SCALE ≤ (wheelUpdate prev delta cx cy).scale ∧
      (wheelUpdate prev delta cx cy).scale ≤ MAX_SCALE := by
  refine ⟨le_min (by norm_num [MIN_SCALE, MAX_SCALE]) (le_max_left _ _), min_le_left _ _⟩

lemma handleWheel_scale (prev : CanvasTransform) (deltaY : ℚ) (p : Bool) (cx cy : ℚ) :
    MIN_SCALE ≤ (handleWheel prev deltaY p cx cy).scale ∧
      (handleWheel prev deltaY p cx cy).scale ≤ MAX_SCALE :=
  wheelUpdate_scale _ _ _ _

lemma applyOp_scale (t : CanvasTransform)
    (h : MIN_SCALE ≤ t.scale ∧ t.scale ≤ MAX_SCALE) (op : CanvasOp) :
    MIN_SCALE ≤ (applyOp t op).scale ∧ (applyOp t op).scale ≤ MAX_SCALE := by
  cases op with
  | pan dx dy => exact h
  | wheel deltaY p cx cy => exact handleWheel_scale t deltaY p cx cy
  | resetView => refine ⟨?_, ?_⟩ <;> norm_num [applyOp, MIN_SCALE, MAX_SCALE]

lemma foldl_applyOp_scale (ops : List CanvasOp) :
    ∀ t : CanvasTransform, MIN_SCALE ≤ t.scale ∧ t.scale ≤ MAX_SCALE →
      MIN_SCALE ≤ (ops.foldl applyOp t).scale ∧ (ops.foldl applyOp t).scale ≤ MAX_SCALE := by
  induction ops with
  | nil => intro t h; exact h
  | cons op rest ih =>
    intro t h
    exact ih (applyOp t op) (applyOp_scale t h op)

/-- Claim C5: the transform's scale lies in `[0.25, 2.0]` in the initial state
and after every sequence of pan steps, wheel-zoom steps (arbitrary deltas and
pinch flags) and `resetView` calls; in particular repeated zoom-in never pushes
scale above 2.0 and repeated zoom-out never below 0.25. -/
theorem scale_clamp_invariant (ops : List CanvasOp) :
    MIN_SCALE ≤ (runOps ops).scale ∧ (runOps ops).scale ≤ MAX_SCALE :=
  foldl_applyOp_scale ops initialTransform
    ⟨by norm_num [MIN_SCALE, initialTransform], by norm_num [MAX_SCALE, initialTransform]⟩

lemma wheelUpdate_anchor (t : CanvasTransform) (hs : t.scale ≠ 0)
    (delta cursorX cursorY : ℚ) (rect : DOMRect) :
    screenToCanvas t (rect.left + cursorX) (rect.top + cursorY) rect =
      screenToCanvas (wheelUpdate t delta cursorX cursorY)
        (rect.left + cursorX) (rect.top + cursorY) rect := by
  have hN : min MAX_SCALE (max MIN_SCALE (t.scale * (1 + delta))) ≠ 0 := by
    have h1 : MIN_SCALE ≤ min MAX_SCALE (max MIN_SCALE (t.scale * (1 + delta))) :=
      le_min (by norm_num [MIN_SCALE, MAX_SCALE]) (le_max_left _ _)
    exact ne_of_gt (lt_of_lt_of_le (by norm_num [MIN_SCALE]) h1)
  simp only [wheelUpdate, screenToCanvas, Prod.mk.injEq]
  generalize hgen : min MAX_SCALE (max MIN_SCALE (t.scale * (1 + delta))) = N at hN ⊢
  constructor <;> (field_simp; ring)

/-- Claim C1: zoom anchoring — for every transform with scale in `[0.25, 2.0]`,
every container-local cursor position and every wheel delta, `screenToCanvas`
at the cursor's screen location gives the same canvas point before and after
the wheel-zoom step (exactly, in rational arithmetic), including clamped
steps. -/
theorem zoom_anchoring (t : CanvasTransform)
    (h1 : MIN_SCALE ≤ t.scale) (_h2 : t.scale ≤ MAX_SCALE)
    (deltaY : ℚ) (p : Bool) (cursorX cursorY : ℚ) (rect : DOMRect) :
    screenToCanvas t (rect.left + cursorX) (rect.top + cursorY) rect =
      screenToCanvas (handleWheel t deltaY p cursorX cursorY)
        (rect.left + cursorX) (rect.top + cursorY) rect := by
  have hs : t.scale ≠ 0 := by
    exact ne_of_gt (lt_of_lt_of_le (by norm_num [MIN_SCALE]) h1)
  exact wheelUpdate_anchor t hs _ cursorX cursorY rect

/-- Witness for C1 at a concrete transform, cursor and delta. -/
theorem zoom_anchoring_witness :
    MIN_SCALE ≤ (⟨10, 20, 1⟩ : CanvasTransform).scale ∧
      (⟨10, 20, 1⟩ : CanvasTransform).scale ≤ MAX_SCALE ∧
      screenToCanvas ⟨10, 20, 1⟩ ((⟨0, 0, 800, 600⟩ : DOMRect).left + 300)
          ((⟨0, 0, 800, 600⟩ : DOMRect).top + 200) ⟨0, 0, 800, 600⟩ =
        screenToCanvas (handleWheel ⟨10, 20, 1⟩ (-100) false 300 200)
          ((⟨0, 0, 800, 600⟩ : DOMRect).left + 300)
          ((⟨0, 0, 800, 600⟩ : DOMRect).top + 200) ⟨0, 0, 800, 600⟩ :=
  ⟨by norm_num [MIN_SCALE], by norm_num [MAX_SCALE],
    zoom_anchoring ⟨10, 20, 1⟩ (by norm_num [MIN_SCALE]) (by norm_num [MAX_SCALE])
      (-100) false 300 200 ⟨0, 0, 800, 600⟩⟩

/-- `canvasToScreen`, the inverse affine map implied by the transform (the
spec's explicit formula `screen = canvas * scale + translation + container
origin`); not a source function, but fully determined by the claim's text. -/
def canvasToScreen (t : CanvasTransform) (canvasX canvasY : ℚ)
    (containerRect : DOMRect) : ℚ × ℚ :=
  (canvasX * t.scale + t.x + containerRect.left,
   canvasY * t.scale + t.y + containerRect.top)

/-- Claim C7: coordinate round-trip — for every transform with nonzero scale
and every canvas point, `screenToCanvas` after `canvasToScreen` returns the
point exactly (in rational arithmetic). -/
theorem screen_canvas_roundtrip (t : CanvasTransform) (h : t.scale ≠ 0)
    (px py : ℚ) (rect : DOMRect) :
    screenToCanvas t (canvasToScreen t px py rect).1 (canvasToScreen t px py rect).2 rect
      = (px, py) := by
  simp only [screenToCanvas, canvasToScreen, Prod.mk.injEq]
  constructor <;> field_simp

/-- Witness for C7 at a concrete transform and point. -/
theorem screen_canvas_roundtrip_witness :
    (⟨3, 5, 2⟩ : CanvasTransform).scale ≠ 0 ∧
      screenToCanvas ⟨3, 5, 2⟩ (canvasToScreen ⟨3, 5, 2⟩ 7 11 ⟨4, 9, 800, 600⟩).1
        (canvasToScreen ⟨3, 5, 2⟩ 7 11 ⟨4, 9, 800, 600⟩).2 ⟨4, 9, 800, 600⟩ = (7, 11) :=
  ⟨by norm_num, screen_canvas_roundtrip ⟨3, 5, 2⟩ (by norm_num) 7 11 ⟨4, 9, 800, 600⟩⟩

/-- Claim C10: clamped zoom is a full no-op — at `scale = MAX_SCALE` a
zoom-in step (negative `deltaY`) leaves the whole transform unchanged, and at
`scale = MIN_SCALE` a zoom-out step (positive `deltaY`) does too; the
translation never drifts at the limits. -/
lemma wheelUpdate_fixed (t : CanvasTransform) (delta cx cy : ℚ) (hs : t.scale ≠ 0)
    (h : min MAX_SCALE (max MIN_SCALE (t.scale * (1 + delta))) = t.scale) :
    wheelUpdate t delta cx cy = t := by
  have ext3 : ∀ u v : CanvasTransform, u.x = v.x → u.y = v.y → u.scale = v.scale → u = v := by
    intro u v h1 h2 h3
    cases u; cases v; simp_all
  apply ext3
  · simp only [wheelUpdate]
    rw [h, div_self hs]
    ring
  · simp only [wheelUpdate]
    rw [h, div_self hs]
    ring
  · simp only [wheelUpdate]
    exact h

theorem clamped_zoom_noop (t : CanvasTransform) (deltaY : ℚ) (p : Bool) (cx cy : ℚ) :
    (t.scale = MAX_SCALE → deltaY < 0 → handleWheel t deltaY p cx cy = t) ∧
    (t.scale = MIN_SCALE → 0 < deltaY → handleWheel t deltaY p cx cy = t) := by
  have hsens : (0:ℚ) < (if p then ZOOM_SENSITIVITY * 2 else ZOOM_SENSITIVITY) := by
    cases p <;> norm_num [ZOOM_SENSITIVITY]
  have hMeq : (MAX_SCALE : ℚ) = 2 := rfl
  have hmeq : (MIN_SCALE : ℚ) = 1/4 := rfl
  constructor
  · intro hmax hdy
    have hdelta : 0 < -deltaY * (if p then ZOOM_SENSITIVITY * 2 else ZOOM_SENSITIVITY) :=
      mul_pos (by linarith) hsens
    have hgrow : MAX_SCALE ≤ MAX_SCALE * (1 + -deltaY * (if p then ZOOM_SENSITIVITY * 2 else ZOOM_SENSITIVITY)) := by
      rw [hMeq]; nlinarith [hdelta]
    have hmaxmin : MIN_SCALE ≤ MAX_SCALE * (1 + -deltaY * (if p then ZOOM_SENSITIVITY * 2 else ZOOM_SENSITIVITY)) :=
      le_trans (by norm_num [MIN_SCALE, MAX_SCALE]) hgrow
    refine wheelUpdate_fixed t _ cx cy (by rw [hmax, hMeq]; norm_num) ?_
    rw [hmax, max_eq_right hmaxmin, min_eq_left hgrow]
  · intro hmin hdy
    have hdelta : -deltaY * (if p then ZOOM_SENSITIVITY * 2 else ZOOM_SENSITIVITY) < 0 := by
      have := mul_pos hdy hsens
      nlinarith
    have hshrink : MIN_SCALE * (1 + -deltaY * (if p then ZOOM_SENSITIVITY * 2 else ZOOM_SENSITIVITY)) ≤ MIN_SCALE := by
      rw [hmeq]; nlinarith [hdelta]
    refine wheelUpdate_fixed t _ cx cy (by rw [hmin, hmeq]; norm_num) ?_
    rw [hmin, max_eq_left hshrink, min_eq_right (by norm_num [MIN_SCALE, MAX_SCALE])]

/-- Witness for C10: at scale 2 a zoom-in wheel step changes nothing. -/
theorem clamped_zoom_noop_witness :
    handleWheel ⟨5, 7, 2⟩ (-10) false 3 4 = ⟨5, 7, 2⟩ :=
  (clamped_zoom_noop ⟨5, 7, 2⟩ (-10) false 3 4).1 (by norm_num [MAX_SCALE]) (by norm_num)

/-! Alignment engine from `useAlignmentGuides.ts`. -/

/-- `interface Rect { x; y; width; height }` (canvas-space units). -/
structure Rect where
  x : ℚ
  y : ℚ
  width : ℚ
  height : ℚ
deriving Repr, DecidableEq

def SNAP_THRESHOLD : ℚ := 6

/-- The 5-plus-1 key edges/centers of a rectangle (`getEdges`). -/
structure Edges where
  left : ℚ
  right : ℚ
  centerX : ℚ
  top : ℚ
  bottom : ℚ
  centerY : ℚ
deriving Repr, DecidableEq

def getEdges (r : Rect) : Edges :=
  { left := r.x
    right := r.x + r.width
    centerX := r.x + r.width / 2
    top := r.y
    bottom := r.y + r.height
    centerY := r.y + r.height / 2 }

inductive GuideKind where
  | vertical
  | horizontal
deriving Repr, DecidableEq

/-- `interface Guide { type; position; start; end }`; the `end` field is named
`stop` here because `end` is reserved in Lean. -/
structure Guide where
  type : GuideKind
  position : ℚ
  start : ℚ
  stop : ℚ
deriving Repr, DecidableEq

/-- The nine X-axis cross-pairs `vChecks` (dragged value, other value), in
source order. -/
def vChecks (drag o : Edges) : List (ℚ × ℚ) :=
  [(drag.left, o.left), (drag.left, o.right), (drag.left, o.centerX),
   (drag.right, o.left), (drag.right, o.right), (drag.right, o.centerX),
   (drag.centerX, o.centerX), (drag.centerX, o.left), (drag.centerX, o.right)]

/-- The nine Y-axis cross-pairs `hChecks`, in source order. -/
def hChecks (drag o : Edges) : List (ℚ × ℚ) :=
  [(drag.top, o.top), (drag.top, o.bottom), (drag.top, o.centerY),
   (drag.bottom, o.top), (drag.bottom, o.bottom), (drag.bottom, o.centerY),
   (drag.centerY, o.centerY), (drag.centerY, o.top), (drag.centerY, o.bottom)]

/-- One iteration of the candidate loop: state is `(best, snap)` — the running
`bestDx`/`bestDy` and `snapX`/`snapY`; `base` is `draggingRect.x` (resp. `.y`).
`if (d < SNAP_THRESHOLD && d < best) { best = d; snap = base + (otherVal - dragVal) }`. -/
def snapStep (base : ℚ) (st : ℚ × Option ℚ) (c : ℚ × ℚ) : ℚ × Option ℚ :=
  let d := |c.1 - c.2|
  if d < SNAP_THRESHOLD ∧ d < st.1 then (d, some (base + (c.2 - c.1))) else st

/-- The nested candidate loop of `calcSnap` on one axis: fold over the other
rects and, for each, over its nine cross-pairs, starting from
`best = SNAP_THRESHOLD + 1`, `snap = null`. -/
def snapScan (base : ℚ) (checks : Edges → Edges → List (ℚ × ℚ)) (drag : Edges)
    (others : List Rect) : ℚ × Option ℚ :=
  others.foldl (fun st o => (checks drag (getEdges o)).foldl (snapStep base) st)
    (SNAP_THRESHOLD + 1, none)

/-- The final vertical-guide rebuild of `calcSnap` against the snapped x
position `s`: one guide per other rect and per value in
`[o.left, o.right, o.centerX]` within 1 unit of the snapped rect's
left/right/centerX. -/
def vGuides (draggingRect : Rect) (others : List Rect) (s : ℚ) : List Guide :=
  let drag2 := getEdges { draggingRect with x := s }
  others.flatMap (fun other =>
    let o := getEdges other
    [o.left, o.right, o.centerX].filterMap (fun v =>
      if |drag2.left - v| < 1 ∨ |drag2.right - v| < 1 ∨ |drag2.centerX - v| < 1 then
        some ⟨.vertical, v, min drag2.top o.top, max drag2.bottom o.bottom⟩
      else none))

/-- The final horizontal-guide rebuild against the snapped y position `s`. -/
def hGuides (draggingRect : Rect) (others : List Rect) (s : ℚ) : List Guide :=
  let drag2 := getEdges { draggingRect with y := s }
  others.flatMap (fun other =>
    let o := getEdges other
    [o.top, o.bottom, o.centerY].filterMap (fun v =>
      if |drag2.top - v| < 1 ∨ |drag2.bottom - v| < 1 ∨ |drag2.centerY - v| < 1 then
        some ⟨.horizontal, v, min drag2.left o.left, max drag2.right o.right⟩
      else none))

structure SnapResult where
  snapX : Option ℚ
  snapY : Option ℚ
  guides : List Guide
deriving Repr, DecidableEq

/-- The body of `calcSnap` after `others` has been computed. The in-loop
`newGuides` accumulator of the source never reaches the returned value (the
returned list is rebuilt from scratch as `finalGuides`), so only the
`(bestDx, snapX)`/`(bestDy, snapY)` loop state and the final rebuild are
embedded. -/
def calcSnapCore (draggingRect : Rect) (others : List Rect) : SnapResult :=
  if others.isEmpty then ⟨none, none, []⟩
  else
    let drag := getEdges draggingRect
    let snapX := (snapScan draggingRect.x vChecks drag others).2
    let snapY := (snapScan draggingRect.y hChecks drag others).2
    let finalGuides :=
      (match snapX with
       | some s => vGuides draggingRect others s
       | none => []) ++
      (match snapY with
       | some s => hGuides draggingRect others s
       | none => [])
    ⟨snapX, snapY, finalGuides⟩

/-- `others = allRects.filter((_, i) => i !== excludeIndex)`; the index is an
integer because the board passes `-1` when nothing is dragged. -/
def othersOf (allRects : List Rect) (excludeIndex : ℤ) : List Rect :=
  (allRects.enum.filter (fun p => (p.1 : ℤ) ≠ excludeIndex)).map Prod.snd

/-- `calcSnap(draggingRect)` from `useAlignmentGuides(allRects, excludeIndex)`. -/
def calcSnap (allRects : List Rect) (excludeIndex : ℤ) (draggingRect : Rect) : SnapResult :=
  calcSnapCore draggingRect (othersOf allRects excludeIndex)

lemma snapStep_best_le (base : ℚ) (st : ℚ × Option ℚ) (c : ℚ × ℚ) :
    (snapStep base st c).1 ≤ st.1 := by
  simp only [snapStep]
  split
  · next h => exact le_of_lt h.2
  · exact le_refl _

lemma foldl_snapStep_best_le (base : ℚ) (cs : List (ℚ × ℚ)) :
    ∀ st, (cs.foldl (snapStep base) st).1 ≤ st.1 := by
  induction cs with
  | nil => intro st; exact le_refl _
  | cons c rest ih =>
    intro st
    exact le_trans (ih (snapStep base st c)) (snapStep_best_le base st c)

/-- The running best distance ends at most any in-threshold candidate's
distance. -/
lemma foldl_snapStep_min (base : ℚ) (cs : List (ℚ × ℚ)) :
    ∀ st, ∀ c ∈ cs, |c.1 - c.2| < SNAP_THRESHOLD →
      (cs.foldl (snapStep base) st).1 ≤ |c.1 - c.2| := by
  induction cs with
  | nil =>
    intro st c hc
    exact absurd hc (List.not_mem_nil c)
  | cons c0 rest ih =>
    intro st c hc hlt
    rcases List.mem_cons.mp hc with h | h
    · subst h
      have hstep : (snapStep base st c).1 ≤ |c.1 - c.2| := by
        simp only [snapStep]
        split
        · exact le_refl _
        · next h2 =>
          push_neg at h2
          exact h2 hlt
      exact le_trans (foldl_snapStep_best_le base rest (snapStep base st c)) hstep
    · exact ih (snapStep base st c0) c h hlt

/-- The fold either leaves the state untouched or ends at some in-threshold
candidate's distance and the corresponding snapped coordinate. -/
lemma foldl_snapStep_rep (base : ℚ) (cs : List (ℚ × ℚ)) :
    ∀ st, cs.foldl (snapStep base) st = st ∨
      ∃ c ∈ cs, |c.1 - c.2| < SNAP_THRESHOLD ∧
        cs.foldl (snapStep base) st = (|c.1 - c.2|, some (base + (c.2 - c.1))) := by
  induction cs with
  | nil => intro st; exact Or.inl rfl
  | cons c0 rest ih =>
    intro st
    rcases ih (snapStep base st c0) with h | ⟨c, hc, hlt, heq⟩
    · by_cases h0 : |c0.1 - c0.2| < SNAP_THRESHOLD ∧ |c0.1 - c0.2| < st.1
      · right
        refine ⟨c0, List.mem_cons_self _ _, h0.1, ?_⟩
        rw [List.foldl_cons, h]
        simp only [snapStep, if_pos h0]
      · left
        rw [List.foldl_cons, h]
        simp only [snapStep, if_neg h0]
    · right
      refine ⟨c, List.mem_cons_of_mem _ hc, hlt, ?_⟩
      rw [List.foldl_cons]
      exact heq

/-- The nested per-rect loop equals one fold over the flattened candidate
list. -/
lemma snapScan_eq_flat (base : ℚ) (checks : Edges → Edges → List (ℚ × ℚ)) (drag : Edges)
    (others : List Rect) :
    snapScan base checks drag others =
      (others.flatMap (fun o => checks drag (getEdges o))).foldl (snapStep base)
        (SNAP_THRESHOLD + 1, none) := by
  simp only [snapScan]
  generalize (SNAP_THRESHOLD + 1, (none : Option ℚ)) = st
  induction others generalizing st with
  | nil => rfl
  | cons o rest ih =>
    simp only [List.foldl_cons, List.flatMap_cons, List.foldl_append]
    exact ih _

lemma calcSnapCore_cons_snapX (a o0 : Rect) (rest : List Rect) :
    (calcSnapCore a (o0 :: rest)).snapX =
      (snapScan a.x vChecks (getEdges a) (o0 :: rest)).2 := rfl

lemma calcSnapCore_cons_snapY (a o0 : Rect) (rest : List Rect) :
    (calcSnapCore a (o0 :: rest)).snapY =
      (snapScan a.y hChecks (getEdges a) (o0 :: rest)).2 := rfl

lemma calcSnapCore_cons_guides (a o0 : Rect) (rest : List Rect) :
    (calcSnapCore a (o0 :: rest)).guides =
      (match (snapScan a.x vChecks (getEdges a) (o0 :: rest)).2 with
       | some s => vGuides a (o0 :: rest) s
       | none => []) ++
      (match (snapScan a.y hChecks (getEdges a) (o0 :: rest)).2 with
       | some s => hGuides a (o0 :: rest) s
       | none => []) := rfl

/-- Claim C2: when `calcSnap` returns a non-null `snapX`, the snap comes from
a cross-pair strictly inside the 6-unit threshold, minimal in absolute
difference among all nine X-axis cross-pairs over all other rects, and the
snapped coordinate makes the winning dragged edge/center exactly equal the
other rect's value (`s + (c.1 - a.x) = c.2`); symmetrically for `snapY`. -/
theorem calcSnap_closest_and_exact (a : Rect) (others : List Rect) :
    (∀ s, (calcSnapCore a others).snapX = some s →
      ∃ o ∈ others, ∃ c ∈ vChecks (getEdges a) (getEdges o),
        |c.1 - c.2| < SNAP_THRESHOLD ∧
        s = a.x + (c.2 - c.1) ∧
        s + (c.1 - a.x) = c.2 ∧
        ∀ o2 ∈ others, ∀ c2 ∈ vChecks (getEdges a) (getEdges o2),
          |c2.1 - c2.2| < SNAP_THRESHOLD → |c.1 - c.2| ≤ |c2.1 - c2.2|) ∧
    (∀ s, (calcSnapCore a others).snapY = some s →
      ∃ o ∈ others, ∃ c ∈ hChecks (getEdges a) (getEdges o),
        |c.1 - c.2| < SNAP_THRESHOLD ∧
        s = a.y + (c.2 - c.1) ∧
        s + (c.1 - a.y) = c.2 ∧
        ∀ o2 ∈ others, ∀ c2 ∈ hChecks (getEdges a) (getEdges o2),
          |c2.1 - c2.2| < SNAP_THRESHOLD → |c.1 - c.2| ≤ |c2.1 - c2.2|) := by
  constructor
  · intro s hs
    cases others with
    | nil => simp [calcSnapCore] at hs
    | cons o0 rest =>
      rw [calcSnapCore_cons_snapX, snapScan_eq_flat] at hs
      rcases foldl_snapStep_rep a.x
          ((o0 :: rest).flatMap (fun o => vChecks (getEdges a) (getEdges o)))
          (SNAP_THRESHOLD + 1, none) with h | ⟨c, hc, hlt, heq⟩
      · rw [h] at hs
        simp at hs
      · rw [heq] at hs
        have hsval : s = a.x + (c.2 - c.1) := by
          simpa using hs.symm
        obtain ⟨o, ho, hco⟩ := List.mem_flatMap.mp hc
        refine ⟨o, ho, c, hco, hlt, hsval, by rw [hsval]; ring, ?_⟩
        intro o2 ho2 c2 hc2 hlt2
        have hmin := foldl_snapStep_min a.x
          ((o0 :: rest).flatMap (fun o => vChecks (getEdges a) (getEdges o)))
          (SNAP_THRESHOLD + 1, none) c2 (List.mem_flatMap.mpr ⟨o2, ho2, hc2⟩) hlt2
        rw [heq] at hmin
        exact hmin
  · intro s hs
    cases others with
    | nil => simp [calcSnapCore] at hs
    | cons o0 rest =>
      rw [calcSnapCore_cons_snapY, snapScan_eq_flat] at hs
      rcases foldl_snapStep_rep a.y
          ((o0 :: rest).flatMap (fun o => hChecks (getEdges a) (getEdges o)))
          (SNAP_THRESHOLD + 1, none) with h | ⟨c, hc, hlt, heq⟩
      · rw [h] at hs
        simp at hs
      · rw [heq] at hs
        have hsval : s = a.y + (c.2 - c.1) := by
          simpa using hs.symm
        obtain ⟨o, ho, hco⟩ := List.mem_flatMap.mp hc
        refine ⟨o, ho, c, hco, hlt, hsval, by rw [hsval]; ring, ?_⟩
        intro o2 ho2 c2 hc2 hlt2
        have hmin := foldl_snapStep_min a.y
          ((o0 :: rest).flatMap (fun o => hChecks (getEdges a) (getEdges o)))
          (SNAP_THRESHOLD + 1, none) c2 (List.mem_flatMap.mpr ⟨o2, ho2, hc2⟩) hlt2
        rw [heq] at hmin
        exact hmin

/-- Witness for C2 at a concrete configuration: the active rect `(0,0,10,10)`
next to `(12,0,10,10)` snaps to `snapX = 2` (right edge onto the other's left
edge, distance 2). -/
theorem calcSnap_closest_and_exact_witness :
    (calcSnapCore ⟨0, 0, 10, 10⟩ [⟨12, 0, 10, 10⟩]).snapX = some 2 ∧
      ∃ o ∈ [(⟨12, 0, 10, 10⟩ : Rect)],
        ∃ c ∈ vChecks (getEdges ⟨0, 0, 10, 10⟩) (getEdges o),
          |c.1 - c.2| < SNAP_THRESHOLD ∧
          (2 : ℚ) = (⟨0, 0, 10, 10⟩ : Rect).x + (c.2 - c.1) ∧
          (2 : ℚ) + (c.1 - (⟨0, 0, 10, 10⟩ : Rect).x) = c.2 ∧
          ∀ o2 ∈ [(⟨12, 0, 10, 10⟩ : Rect)],
            ∀ c2 ∈ vChecks (getEdges ⟨0, 0, 10, 10⟩) (getEdges o2),
              |c2.1 - c2.2| < SNAP_THRESHOLD → |c.1 - c.2| ≤ |c2.1 - c2.2| :=
  ⟨by norm_num [calcSnapCore, snapScan, vChecks, hChecks, getEdges, snapStep, SNAP_THRESHOLD],
    (calcSnap_closest_and_exact ⟨0, 0, 10, 10⟩ [⟨12, 0, 10, 10⟩]).1 2
      (by norm_num [calcSnapCore, snapScan, vChecks, hChecks, getEdges, snapStep, SNAP_THRESHOLD])⟩

/-- Claim C3: the snap threshold is strict — with one other rect whose
corresponding edge (left-left on X, top-top on Y) differs by `d` and whose
remaining eight cross-pairs on that axis are all at least the threshold away
(no closer candidate), `calcSnap` returns a snap on that axis exactly when
`d < 6`; in particular an exact difference of 6 does not snap. -/
theorem snap_threshold_strict (a o : Rect) (d : ℚ) :
    ((|(getEdges a).left - (getEdges o).left| = d →
      (∀ c ∈ vChecks (getEdges a) (getEdges o),
        c ≠ ((getEdges a).left, (getEdges o).left) → SNAP_THRESHOLD ≤ |c.1 - c.2|) →
      ((calcSnapCore a [o]).snapX ≠ none ↔ d < SNAP_THRESHOLD))) ∧
    ((|(getEdges a).top - (getEdges o).top| = d →
      (∀ c ∈ hChecks (getEdges a) (getEdges o),
        c ≠ ((getEdges a).top, (getEdges o).top) → SNAP_THRESHOLD ≤ |c.1 - c.2|) →
      ((calcSnapCore a [o]).snapY ≠ none ↔ d < SNAP_THRESHOLD))) := by
  have hSe : (SNAP_THRESHOLD : ℚ) = 6 := rfl
  constructor
  · intro hxd hxo
    rw [calcSnapCore_cons_snapX, snapScan_eq_flat]
    rcases foldl_snapStep_rep a.x
        (([o] : List Rect).flatMap (fun o2 => vChecks (getEdges a) (getEdges o2)))
        (SNAP_THRESHOLD + 1, none) with h | ⟨c, hc, hlt, heq⟩
    · rw [h]
      constructor
      · intro hne
        exact absurd rfl hne
      · intro hd
        have hmem : ((getEdges a).left, (getEdges o).left) ∈
            ([o] : List Rect).flatMap (fun o2 => vChecks (getEdges a) (getEdges o2)) :=
          List.mem_flatMap.mpr ⟨o, by simp, by simp [vChecks]⟩
        have hmin := foldl_snapStep_min a.x
          (([o] : List Rect).flatMap (fun o2 => vChecks (getEdges a) (getEdges o2)))
          (SNAP_THRESHOLD + 1, none) ((getEdges a).left, (getEdges o).left) hmem
          (by simpa [hxd] using hd)
        rw [h] at hmin
        simp only [hxd] at hmin
        rw [hSe] at hmin hd
        norm_num at hmin
        linarith
    · rw [heq]
      constructor
      · intro _
        obtain ⟨o2, ho2, hco⟩ := List.mem_flatMap.mp hc
        have ho2eq : o2 = o := by simpa using ho2
        subst ho2eq
        by_cases hcc : c = ((getEdges a).left, (getEdges o2).left)
        · subst hcc
          simpa [hxd] using hlt
        · exact absurd hlt (not_lt.mpr (hxo c hco hcc))
      · intro _
        simp
  · intro hyd hyo
    rw [calcSnapCore_cons_snapY, snapScan_eq_flat]
    rcases foldl_snapStep_rep a.y
        (([o] : List Rect).flatMap (fun o2 => hChecks (getEdges a) (getEdges o2)))
        (SNAP_THRESHOLD + 1, none) with h | ⟨c, hc, hlt, heq⟩
    · rw [h]
      constructor
      · intro hne
        exact absurd rfl hne
      · intro hd
        have hmem : ((getEdges a).top, (getEdges o).top) ∈
            ([o] : List Rect).flatMap (fun o2 => hChecks (getEdges a) (getEdges o2)) :=
          List.mem_flatMap.mpr ⟨o, by simp, by simp [hChecks]⟩
        have hmin := foldl_snapStep_min a.y
          (([o] : List Rect).flatMap (fun o2 => hChecks (getEdges a) (getEdges o2)))
          (SNAP_THRESHOLD + 1, none) ((getEdges a).top, (getEdges o).top) hmem
          (by simpa [hyd] using hd)
        rw [h] at hmin
        simp only [hyd] at hmin
        rw [hSe] at hmin hd
        norm_num at hmin
        linarith
    · rw [heq]
      constructor
      · intro _
        obtain ⟨o2, ho2, hco⟩ := List.mem_flatMap.mp hc
        have ho2eq : o2 = o := by simpa using ho2
        subst ho2eq
        by_cases hcc : c = ((getEdges a).top, (getEdges o2).top)
        · subst hcc
          simpa [hyd] using hlt
        · exact absurd hlt (not_lt.mpr (hyo c hco hcc))
      · intro _
        simp

/-- Witness for C3: the active rect `(0,0,100,100)` and other rect
`(5,300,73,100)` have left edges 5 apart and every other X cross-pair at
least 6 away; the snap on X exists, matching `5 < 6`. -/
theorem snap_threshold_strict_witness :
    |(getEdges ⟨0, 0, 100, 100⟩).left - (getEdges ⟨5, 300, 73, 100⟩).left| = (5:ℚ) ∧
      ((calcSnapCore ⟨0, 0, 100, 100⟩ [⟨5, 300, 73, 100⟩]).snapX ≠ none ↔
        (5:ℚ) < SNAP_THRESHOLD) :=
  ⟨by norm_num [getEdges],
    (snap_threshold_strict ⟨0, 0, 100, 100⟩ ⟨5, 300, 73, 100⟩ 5).1
      (by norm_num [getEdges])
      (by
        intro c hc hne
        have hne2 : c ≠ ((0:ℚ), (5:ℚ)) := by
          intro h
          exact hne (by rw [h]; norm_num [getEdges])
        norm_num [vChecks, getEdges] at hc
        rcases hc with rfl | rfl | rfl | rfl | rfl | rfl | rfl | rfl | rfl
        · exact absurd rfl hne2
        all_goals norm_num [SNAP_THRESHOLD, le_abs])⟩

/-- Claim C4: guides are rebuilt against the snapped position — with a
non-null `snapX`, for every other rect and every one of its
left/right/centerX values within 1 unit of the snapped rect's
left/right/centerX there is a vertical guide at that value spanning the
union of the two rects' vertical extents (min of tops to max of bottoms, no
padding); symmetrically for `snapY`; and with both snaps null the guide list
is empty. -/
theorem calcSnap_guide_reconstruction (a : Rect) (others : List Rect) :
    (∀ s, (calcSnapCore a others).snapX = some s →
      ∀ o ∈ others, ∀ v ∈ [(getEdges o).left, (getEdges o).right, (getEdges o).centerX],
        (|(getEdges { a with x := s }).left - v| < 1 ∨
         |(getEdges { a with x := s }).right - v| < 1 ∨
         |(getEdges { a with x := s }).centerX - v| < 1) →
        (⟨.vertical, v, min (getEdges { a with x := s }).top ((getEdges o).top),
            max (getEdges { a with x := s }).bottom ((getEdges o).bottom)⟩ : Guide)
          ∈ (calcSnapCore a others).guides) ∧
    (∀ s, (calcSnapCore a others).snapY = some s →
      ∀ o ∈ others, ∀ v ∈ [(getEdges o).top, (getEdges o).bottom, (getEdges o).centerY],
        (|(getEdges { a with y := s }).top - v| < 1 ∨
         |(getEdges { a with y := s }).bottom - v| < 1 ∨
         |(getEdges { a with y := s }).centerY - v| < 1) →
        (⟨.horizontal, v, min (getEdges { a with y := s }).left ((getEdges o).left),
            max (getEdges { a with y := s }).right ((getEdges o).right)⟩ : Guide)
          ∈ (calcSnapCore a others).guides) ∧
    ((calcSnapCore a others).snapX = none → (calcSnapCore a others).snapY = none →
      (calcSnapCore a others).guides = []) := by
  refine ⟨?_, ?_, ?_⟩
  · intro s hs o ho v hv hcond
    cases others with
    | nil => simp [calcSnapCore] at hs
    | cons o0 rest =>
      rw [calcSnapCore_cons_snapX] at hs
      rw [calcSnapCore_cons_guides]
      simp only [hs]
      apply List.mem_append_left
      simp only [vGuides]
      refine List.mem_flatMap.mpr ⟨o, ho, ?_⟩
      refine List.mem_filterMap.mpr ⟨v, hv, ?_⟩
      rw [if_pos hcond]
  · intro s hs o ho v hv hcond
    cases others with
    | nil => simp [calcSnapCore] at hs
    | cons o0 rest =>
      rw [calcSnapCore_cons_snapY] at hs
      rw [calcSnapCore_cons_guides]
      simp only [hs]
      apply List.mem_append_right
      simp only [hGuides]
      refine List.mem_flatMap.mpr ⟨o, ho, ?_⟩
      refine List.mem_filterMap.mpr ⟨v, hv, ?_⟩
      rw [if_pos hcond]
  · intro hx hy
    cases others with
    | nil => rfl
    | cons o0 rest =>
      rw [calcSnapCore_cons_snapX] at hx
      rw [calcSnapCore_cons_snapY] at hy
      rw [calcSnapCore_cons_guides]
      simp only [hx, hy, List.append_nil]

/-- Witness for C4 at the same concrete configuration as C2: the snapped rect
`(2,0,10,10)` has its right edge exactly on the other rect's left edge, so a
vertical guide at that edge spanning both rects is in the returned list. -/
theorem calcSnap_guide_reconstruction_witness :
    (calcSnapCore ⟨0, 0, 10, 10⟩ [⟨12, 0, 10, 10⟩]).snapX = some 2 ∧
      (⟨.vertical, (getEdges (⟨12, 0, 10, 10⟩ : Rect)).left,
          min (getEdges { (⟨0, 0, 10, 10⟩ : Rect) with x := (2:ℚ) }).top
            ((getEdges (⟨12, 0, 10, 10⟩ : Rect)).top),
          max (getEdges { (⟨0, 0, 10, 10⟩ : Rect) with x := (2:ℚ) }).bottom
            ((getEdges (⟨12, 0, 10, 10⟩ : Rect)).bottom)⟩ : Guide)
        ∈ (calcSnapCore ⟨0, 0, 10, 10⟩ [⟨12, 0, 10, 10⟩]).guides :=
  ⟨by norm_num [calcSnapCore, snapScan, vChecks, hChecks, getEdges, snapStep, SNAP_THRESHOLD],
    (calcSnap_guide_reconstruction ⟨0, 0, 10, 10⟩ [⟨12, 0, 10, 10⟩]).1 2
      (by norm_num [calcSnapCore, snapScan, vChecks, hChecks, getEdges, snapStep, SNAP_THRESHOLD])
      ⟨12, 0, 10, 10⟩ (by simp) (getEdges (⟨12, 0, 10, 10⟩ : Rect)).left (by simp)
      (Or.inr (Or.inl (by norm_num [getEdges])))⟩

/-! Z-order state from `App.tsx`:
`useState<{ counter: number; map: Record<number, number> }>({ counter: 1, map: {} })`
and `handleBringToFront`. The record is embedded as a total function to
`Option`, `none` meaning "id not present in the map". -/

/-- `{ counter: number; map: Record<number, number> }` from `App.tsx`. -/
structure ZIndexState where
  counter : ℕ
  map : ℕ → Option ℕ

/-- Initial z-order state: `{ counter: 1, map: {} }`. -/
def initialZ : ZIndexState := ⟨1, fun _ => none⟩

/-- `handleBringToFront(id)`: `next = prev.counter + 1`,
`{ counter: next, map: { ...prev.map, [id]: next } }`. -/
def bringToFront (id : ℕ) (prev : ZIndexState) : ZIndexState :=
  ⟨prev.counter + 1, fun j => if j = id then some (prev.counter + 1) else prev.map j⟩

/-- Run a sequence of `bringToFront` calls from the initial state. -/
def runBTF (ids : List ℕ) : ZIndexState :=
  ids.foldl (fun s i => bringToFront i s) initialZ

/-- Every rank stored in the map is at most the counter; preserved by folding
`bringToFront` over any id list, and the counter never decreases. -/
lemma foldBTF_bound (ids : List ℕ) :
    ∀ s : ZIndexState, (∀ j r, s.map j = some r → r ≤ s.counter) →
      (∀ j r, (ids.foldl (fun s i => bringToFront i s) s).map j = some r →
          r ≤ (ids.foldl (fun s i => bringToFront i s) s).counter) ∧
        s.counter ≤ (ids.foldl (fun s i => bringToFront i s) s).counter := by
  induction ids with
  | nil => intro s h; exact ⟨h, le_refl _⟩
  | cons i rest ih =>
    intro s h
    have hstep : ∀ j r, (bringToFront i s).map j = some r → r ≤ (bringToFront i s).counter := by
      intro j r hj
      simp only [bringToFront] at hj ⊢
      by_cases hji : j = i
      · simp [hji] at hj
        omega
      · simp [hji] at hj
        exact le_trans (h j r hj) (Nat.le_succ _)
    have := ih (bringToFront i s) hstep
    refine ⟨this.1, le_trans ?_ this.2⟩
    simp only [bringToFront]
    exact Nat.le_succ _

/-- Claim C6: each `bringToFront(id)` increments the counter by one, assigns
the new counter value as `id`'s rank, and leaves every other id's mapping
unchanged; consequently after any sequence of calls from the initial state
`{counter: 1, map: {}}`, the most recently called id has a rank strictly
greater than every other id's last-assigned rank. -/
theorem bringToFront_spec :
    (∀ (s : ZIndexState) (id : ℕ),
      (bringToFront id s).counter = s.counter + 1 ∧
      (bringToFront id s).map id = some (s.counter + 1) ∧
      ∀ j, j ≠ id → (bringToFront id s).map j = s.map j) ∧
    (∀ (ids : List ℕ) (id j r : ℕ), j ≠ id →
      (runBTF (ids ++ [id])).map j = some r →
      ∃ ri, (runBTF (ids ++ [id])).map id = some ri ∧ r < ri) := by
  constructor
  · intro s id
    refine ⟨rfl, by simp [bringToFront], ?_⟩
    intro j hj
    simp [bringToFront, hj]
  · intro ids id j r hji hmap
    have hbase : ∀ (j : ℕ) (r : ℕ), initialZ.map j = some r → r ≤ initialZ.counter := by
      intro j r hj
      simp [initialZ] at hj
    have hfold := foldBTF_bound ids initialZ hbase
    have hlast : runBTF (ids ++ [id]) = bringToFront id (runBTF ids) := by
      simp only [runBTF, List.foldl_append, List.foldl_cons, List.foldl_nil]
    rw [hlast] at hmap ⊢
    refine ⟨(runBTF ids).counter + 1, by simp [bringToFront], ?_⟩
    simp only [bringToFront, hji, if_neg hji] at hmap
    have hb : r ≤ (runBTF ids).counter := hfold.1 j r hmap
    omega

/-- Witness for C6: after calls on 5, 3, 7, id 3 holds rank 3 and the last
id 7 holds a strictly greater rank. -/
theorem bringToFront_spec_witness :
    (3 : ℕ) ≠ 7 ∧ ∃ ri, (runBTF ([5, 3] ++ [7])).map 7 = some ri ∧ 3 < ri :=
  ⟨by decide, bringToFront_spec.2 [5, 3] 7 3 3 (by decide) (by decide)⟩

/-! Placement paths from `InfiniteCanvas.tsx`. The container element
(`containerRef.current`) is modelled as `Option DOMRect`: `none` when the
element is not mounted/measurable, `some rect` for its bounding rectangle. -/

/-- `getViewportCenter`: canvas coordinates for the visible center, shifted by
the half-card offset; `{x: 0, y: 0}` when the container is missing. -/
def getViewportCenter (t : CanvasTransform) (container : Option DOMRect) : ℚ × ℚ :=
  match container with
  | none => (0, 0)
  | some rect =>
    let centerScreenX := rect.left + rect.width / 2
    let centerScreenY := rect.top + rect.height / 2
    let pos := screenToCanvas t centerScreenX centerScreenY rect
    (pos.1 - 140, pos.2 - 100)

/-- `uploadAtScreenPoint`: the canvas coordinates passed to `onUploadFile` for
a drop at a screen point, or `none` when the early `if (!el) return;` fires
and no upload happens. -/
def uploadAtScreenPoint (t : CanvasTransform) (container : Option DOMRect)
    (screenX screenY : ℚ) : Option (ℚ × ℚ) :=
  match container with
  | none => none
  | some rect =>
    let pos := screenToCanvas t screenX screenY rect
    some (pos.1 - 140, pos.2 - 100)

/-- Claim C8: with a mounted container, the upload collaborator receives
`screenToCanvas` of the placement point minus the fixed `(140, 100)` centering
offset; in particular a drop at screen `(500, 300)` under the identity
transform with the container at the viewport origin lands at `(360, 200)`. -/
theorem upload_placement_offset (t : CanvasTransform) (rect : DOMRect) (sx sy : ℚ) :
    uploadAtScreenPoint t (some rect) sx sy =
        some ((screenToCanvas t sx sy rect).1 - 140, (screenToCanvas t sx sy rect).2 - 100) ∧
      uploadAtScreenPoint ⟨0, 0, 1⟩ (some ⟨0, 0, 800, 600⟩) 500 300 = some (360, 200) := by
  refine ⟨rfl, ?_⟩
  simp only [uploadAtScreenPoint, screenToCanvas]
  norm_num

/-- Counterexample for C9 as stated: a drop at screen `(500, 300)` with the
container unmounted does not invoke the upload collaborator at all — the
handler returns early instead of proceeding with the origin. -/
theorem missing_container_drop_counterexample :
    uploadAtScreenPoint ⟨0, 0, 1⟩ none 500 300 = none := rfl

/-- Amended C9: with the container missing, the conversions that go through
`getViewportCenter` (paste at viewport center, file-picker placement) return
the origin `(0, 0)` rather than raising and the upload proceeds with it,
while the drop path (`uploadAtScreenPoint`) returns early without invoking
the upload collaborator. -/
theorem missing_container_fallback (t : CanvasTransform) (sx sy : ℚ) :
    getViewportCenter t none = (0, 0) ∧ uploadAtScreenPoint t none sx sy = none :=
  ⟨rfl, rfl⟩

end Moodboard
